import Mathlib

/-!
Verification of the streaming translation core of the Ollama-to-OpenRouter
proxy (main.go and the provider file).

The embedding is shallow: the provider's pure string algorithms
(alias resolution, metadata synthesis) become Lean functions over strings
and character lists, and the two NDJSON streaming loops of the HTTP
handlers become recursive functions from the received backend chunk
sequence to the emitted event sequence.  Timestamps (the created_at
fields) and the flush calls are abstracted away: they carry no
information relevant to the properties below.  Machine integers do not
overflow anywhere in the modelled code, so sizes and counters are Nat.
-/

/-! ## Backend stream data (go-openai chunk shape, as consumed by main.go) -/

/-- One element of response.Choices in a backend streaming chunk: the text
delta fragment (Delta.Content) and the finish reason (empty string when the
chunk carries none), exactly the two fields main.go reads. -/
structure StreamChoice where
  deltaContent : String
  finishReason : String
deriving DecidableEq

/-- One backend streaming chunk as received by stream.Recv(): its list of
choices.  The Go handlers only ever inspect Choices. -/
structure StreamChunk where
  choices : List StreamChoice
deriving DecidableEq

/-- How the backend stream ends after the successfully delivered chunks:
io.EOF, or a non-EOF error with message msg. -/
inductive StreamTail where
  | eof : StreamTail
  | recvError (msg : String) : StreamTail
deriving DecidableEq

/-! ## Emitted NDJSON events of POST /api/chat (src/main.go lines 619-702) -/

/-- One NDJSON object written by the /api/chat streaming handler.
chunk is an intermediate object {model, created_at, message:{role:
"assistant", content}, done:false}; streamError is {"error": msg};
finalEvent is the terminal object {model, created_at, message:{role:
"assistant", content}, done:true, finish_reason, total_duration,
load_duration, prompt_eval_count, eval_count, eval_duration}. -/
inductive ChatEvent where
  | chunk (model : String) (content : String)
  | streamError (msg : String)
  | finalEvent (model : String) (content : String) (finishReason : String)
      (totalDuration loadDuration promptEvalCount evalCount evalDuration : Nat)
deriving DecidableEq

/-- Value of the done key of the emitted JSON object, none when the object
has no done key (the error object {"error": ...} has none). -/
def ChatEvent.doneField : ChatEvent → Option Bool
  | ChatEvent.chunk _ _ => some false
  | ChatEvent.streamError _ => none
  | ChatEvent.finalEvent _ _ _ _ _ _ _ _ => some true

/-- Value of the finish_reason key of the emitted JSON object, none when
the object has no such key.  Only the terminal /api/chat object carries
finish_reason (src/main.go line 686). -/
def ChatEvent.finishReasonField : ChatEvent → Option String
  | ChatEvent.chunk _ _ => none
  | ChatEvent.streamError _ => none
  | ChatEvent.finalEvent _ _ fr _ _ _ _ _ => some fr

/-! ## Emitted NDJSON events of POST /api/generate (src/main.go 249-312) -/

/-- One NDJSON object written by the /api/generate streaming handler.
chunk is {model, created_at, response: content, done:false}; streamError
is {"error": msg}; finalEvent is the terminal object {model, created_at,
response: content, done:true, context, total_duration, load_duration,
prompt_eval_count, prompt_eval_duration, eval_count, eval_duration}.
Note that the terminal /api/generate object has no finish_reason key
(src/main.go lines 291-303). -/
inductive GenEvent where
  | chunk (model : String) (content : String)
  | streamError (msg : String)
  | finalEvent (model : String) (content : String) (context : List Nat)
      (totalDuration loadDuration promptEvalCount promptEvalDuration evalCount evalDuration : Nat)
deriving DecidableEq

/-- Value of the done key of the emitted generate JSON object, none when
the object has no done key. -/
def GenEvent.doneField : GenEvent → Option Bool
  | GenEvent.chunk _ _ => some false
  | GenEvent.streamError _ => none
  | GenEvent.finalEvent _ _ _ _ _ _ _ _ _ => some true

/-- Value of the finish_reason key of the emitted generate JSON object.
No /api/generate object carries a finish_reason key: the intermediate map
(src/main.go 269-274) has keys model, created_at, response, done, and the
final map (291-303) has keys model, created_at, response, done, context
and the six numeric counters.  The lastFinishReason variable computed by
the generate loop (lines 249, 265-267, 287-289) is never written to the
output. -/
def GenEvent.finishReasonField : GenEvent → Option String
  | GenEvent.chunk _ _ => none
  | GenEvent.streamError _ => none
  | GenEvent.finalEvent _ _ _ _ _ _ _ _ _ => none

/-! ## The streaming loops -/

/-- Outcome of one streaming handler invocation: ok evs when the handler
ran to completion (normal return) having written the events evs in order,
panicked evs when it reached the unguarded response.Choices[0] read on a
chunk with zero choices (index out of range) after writing evs. -/
inductive StreamRun (ev : Type) where
  | ok (events : List ev)
  | panicked (events : List ev)
deriving DecidableEq

/-- True when the run ended in the out-of-range read. -/
def StreamRun.isPanicked {ev : Type} : StreamRun ev → Bool
  | StreamRun.ok _ => false
  | StreamRun.panicked _ => true

/-- Update of the lastFinishReason variable on one received chunk,
modelling: if len(response.Choices) > 0 && response.Choices[0].FinishReason
!= "" { lastFinishReason = string(response.Choices[0].FinishReason) }. -/
def updateFR (fr : String) (c : StreamChunk) : String :=
  match c.choices with
  | [] => fr
  | ch :: _ => if ch.finishReason = "" then fr else ch.finishReason

/-- Delta content of the first choice of a chunk ("" when there is none);
used only to state theorems about chunks known to have a first choice. -/
def firstDeltaContent (c : StreamChunk) : String :=
  match c.choices with
  | [] => ""
  | ch :: _ => ch.deltaContent

/-- Finish reason contributed by one chunk, if any: the first choice's
finish reason when the chunk has a choice and that reason is non-empty. -/
def chunkFR (c : StreamChunk) : Option String :=
  match c.choices with
  | [] => none
  | ch :: _ => if ch.finishReason = "" then none else some ch.finishReason

/-- Value of lastFinishReason after the whole chunk list has been
consumed, starting from the initial empty string. -/
def lastFinishReasonAfter (chunks : List StreamChunk) : String :=
  List.foldl updateFR "" chunks

/-- The last non-empty finish reason observed in any backend chunk
(later values overwriting earlier ones), or "" if none was observed. -/
def lastObservedFR (chunks : List StreamChunk) : String :=
  (chunks.filterMap chunkFR).getLastD ""

/-- Defaulting of the recorded finish reason before the terminal event:
if lastFinishReason == "" { lastFinishReason = "stop" }. -/
def defaultStop (fr : String) : String :=
  if fr = "" then "stop" else fr

/-- Events the /api/chat loop writes once no further chunk arrives: on
io.EOF it breaks out of the loop and writes the single terminal object
with empty content, the defaulted finish reason and zeroed counters
(src/main.go 669-702); on a non-EOF error it writes the single error
object {"error": "Stream error: " + msg} and returns (628-637). -/
def chatTailEvents (model : String) : StreamTail → String → List ChatEvent
  | StreamTail.eof, fr => [ChatEvent.finalEvent model "" (defaultStop fr) 0 0 0 0 0]
  | StreamTail.recvError m, _ => [ChatEvent.streamError ("Stream error: " ++ m)]

/-- The /api/chat streaming loop (src/main.go 619-702), as a function of
the chunk sequence the backend delivers and the way the stream ends.
Each iteration updates lastFinishReason, then reads
response.Choices[0].Delta.Content with no length guard: a chunk with zero
choices ends the run as panicked.  Otherwise it writes the intermediate
object and recurses. -/
def chatStreamLoop (model : String) : String → List StreamChunk → StreamTail → StreamRun ChatEvent
  | fr, [], tail => StreamRun.ok (chatTailEvents model tail fr)
  | fr, c :: rest, tail =>
    match c.choices with
    | [] => StreamRun.panicked []
    | ch :: _ =>
      match chatStreamLoop model (updateFR fr c) rest tail with
      | StreamRun.ok evs => StreamRun.ok (ChatEvent.chunk model ch.deltaContent :: evs)
      | StreamRun.panicked evs => StreamRun.panicked (ChatEvent.chunk model ch.deltaContent :: evs)

/-- The /api/chat streaming handler body from the first stream.Recv() on,
with lastFinishReason starting empty (src/main.go line 619). -/
def chatStream (model : String) (chunks : List StreamChunk) (tail : StreamTail) : StreamRun ChatEvent :=
  chatStreamLoop model "" chunks tail

/-- Events the /api/generate loop writes once no further chunk arrives:
on io.EOF the terminal object with empty response, stub context [1,2,3]
and zeroed counters (src/main.go 286-312) - note the computed
lastFinishReason is defaulted to "stop" (287-289) but does not appear in
the final map; on a non-EOF error the single error object (256-263). -/
def genTailEvents (model : String) : StreamTail → String → List GenEvent
  | StreamTail.eof, _ => [GenEvent.finalEvent model "" [1, 2, 3] 0 0 0 0 0 0]
  | StreamTail.recvError m, _ => [GenEvent.streamError ("Stream error: " ++ m)]

/-- The /api/generate streaming loop (src/main.go 249-312), structured
exactly like the chat loop: unguarded response.Choices[0].Delta.Content
read, lastFinishReason bookkeeping, intermediate object per chunk. -/
def genStreamLoop (model : String) : String → List StreamChunk → StreamTail → StreamRun GenEvent
  | fr, [], tail => StreamRun.ok (genTailEvents model tail fr)
  | fr, c :: rest, tail =>
    match c.choices with
    | [] => StreamRun.panicked []
    | ch :: _ =>
      match genStreamLoop model (updateFR fr c) rest tail with
      | StreamRun.ok evs => StreamRun.ok (GenEvent.chunk model ch.deltaContent :: evs)
      | StreamRun.panicked evs => StreamRun.panicked (GenEvent.chunk model ch.deltaContent :: evs)

/-- The /api/generate streaming handler body from the first stream.Recv()
on, with lastFinishReason starting empty (src/main.go line 249). -/
def genStream (model : String) (chunks : List StreamChunk) (tail : StreamTail) : StreamRun GenEvent :=
  genStreamLoop model "" chunks tail

/-! ## Model catalog resolver (provider file, GetFullModelName) -/

/-- Alias resolution over a catalog snapshot (provider GetFullModelName,
lines 297-313): first an exact-match scan over modelNames, then a
suffix-match scan (strings.HasSuffix(fullName, alias), modelled as
alias.toList.isSuffixOf fullName.toList), then pass-through of the alias
itself. -/
def GetFullModelName (names : List String) (al : String) : String :=
  match names.find? (fun n => n == al) with
  | some n => n
  | none =>
    match names.find? (fun n => List.isSuffixOf al.toList n.toList) with
    | some n => n
    | none => al

/-- Names the resolution scans run over (provider lines 289-295): the
cached o.modelNames when non-empty, otherwise the identifiers a fresh
GetModels fetch stores (fetch = ok ids), or the fetch failure. -/
def effectiveNames (cached : List String) (fetch : Except String (List String)) : Except String (List String) :=
  if cached.isEmpty then fetch else Except.ok cached

/-- Full GetFullModelName including the fetch-on-empty-cache step: a
fetch failure is wrapped as "failed to get models: " and propagated,
otherwise resolution runs over the effective snapshot and never fails. -/
def GetFullModelNameE (cached : List String) (fetch : Except String (List String)) (al : String) : Except String String :=
  match effectiveNames cached fetch with
  | Except.error e => Except.error ("failed to get models: " ++ e)
  | Except.ok names => Except.ok (GetFullModelName names al)

/-- Characters after the last '/' of the list, modelling parts :=
strings.Split(id, "/"); name := parts[len(parts)-1]. -/
def lastSegChars (cs : List Char) : List Char :=
  cs.foldl (fun acc c => if c = '/' then [] else acc ++ [c]) []

/-- Boolean test that the alias al is a strict suffix of entry whose
occurrence lies after the entry's namespace separator: al is a suffix of entry,
differs from entry, and is no longer than the final slash-delimited segment
(the occurrence of a suffix sits at the end of entry, so it lies inside
the final segment exactly when it is no longer than that segment). -/
def strictSuffixAfterSep (al entry : String) : Bool :=
  List.isSuffixOf al.toList entry.toList && (al != entry) &&
    decide (al.toList.length ≤ (lastSegChars entry.toList).length)

/-! ## Metadata synthesizer (provider file, GetModels, lines 109-182) -/

/-- Boolean substring test over character lists, modelling Go
strings.Contains(hay, needle). -/
def goContainsChars (hay needle : List Char) : Bool :=
  match hay with
  | [] => needle.isEmpty
  | c :: rest => needle.isPrefixOf (c :: rest) || goContainsChars rest needle

/-- The lowercased haystack the heuristics scan, modelling nameToCheck :=
strings.ToLower(apiModel.ID + " " + name) with name the final slash-segment. -/
def nameToCheck (id : String) : List Char :=
  (id.toList ++ ' ' :: lastSegChars id.toList).map Char.toLower

/-- Parameter-size class cascade of GetModels (provider lines 131-142):
first match wins, default "7B". -/
def parameterSizeOf (id : String) : String :=
  let s := nameToCheck id
  if goContainsChars s "70b".toList then "70B"
  else if goContainsChars s "13b".toList then "13B"
  else if goContainsChars s "3b".toList then "3B"
  else if goContainsChars s "1b".toList then "1B"
  else "7B"

/-- Family cascade of GetModels (provider lines 145-156): first match
wins, default "transformer". -/
def familyOf (id : String) : String :=
  let s := nameToCheck id
  if goContainsChars s "llama".toList then "llama"
  else if goContainsChars s "mistral".toList then "mistral"
  else if goContainsChars s "gemma".toList then "gemma"
  else if goContainsChars s "claude".toList then "claude"
  else if goContainsChars s "gpt".toList then "gpt"
  else "transformer"

/-- ModelDetails record built by GetModels for each identifier. -/
structure ModelDetails where
  parentModel : String
  format : String
  family : String
  families : List String
  parameterSize : String
  quantizationLevel : String
deriving DecidableEq

/-- Model record built by GetModels for each identifier (the synthesized
digest and the timestamp are abstracted: the digest is a deterministic
function of the identifier and plays no role in the claims below). -/
structure Model where
  name : String
  model : String
  size : Nat
  details : ModelDetails
  contextLength : Nat
deriving DecidableEq

/-- Descriptor synthesis of GetModels for one fetched identifier
(provider lines 122-178). -/
def buildModel (id : String) : Model :=
  { name := String.mk (lastSegChars id.toList)
    model := String.mk (lastSegChars id.toList)
    size := 270898672
    details :=
      { parentModel := ""
        format := "gguf"
        family := familyOf id
        families := [familyOf id]
        parameterSize := parameterSizeOf id
        quantizationLevel := "Q4_K_M" }
    contextLength := 200000 }

/-- Whole-catalog synthesis: one Model per fetched identifier, in fetch
order. -/
def GetModels (ids : List String) : List Model :=
  ids.map buildModel

/-! ## Shared snapshot rebuild (provider GetModels, lines 118-128) -/

/-- Successive values the shared o.modelNames field takes while the
GetModels loop appends the fetched identifiers one at a time: the current
value, then the states produced by appending each remaining identifier. -/
def appendStates (cur : List String) : List String → List (List String)
  | [] => [cur]
  | id :: rest => cur :: appendStates (cur ++ [id]) rest

/-- Observable values of o.modelNames during one GetModels call, from the
clearing write o.modelNames = []string{} (provider line 119) through the
per-model appends (line 128).  There is no synchronization in the
provider, so a concurrent reader may observe any of these values. -/
def GetModelsStates (ids : List String) : List (List String) :=
  appendStates [] ids

/-! ## Request validation and dispatch (main.go handlers) -/

/-- One chat message as built or forwarded by the handlers. -/
structure ChatMessage where
  role : String
  content : String
deriving DecidableEq

/-- Body of POST /api/generate after JSON binding (fields the handler
reads; a missing model or prompt key binds to the empty string). -/
structure GenerateRequest where
  model : String
  prompt : String
  system : String
  stream : Option Bool
deriving DecidableEq

/-- Body of POST /api/chat after JSON binding. -/
structure ChatRequest where
  model : String
  messages : List ChatMessage
  stream : Option Bool
deriving DecidableEq

/-- Message list the generate handler builds (src/main.go 176-186):
optional system message when request.System is non-empty, then the user
message holding the prompt. -/
def generateMessages (req : GenerateRequest) : List ChatMessage :=
  (if req.system = "" then [] else [{ role := "system", content := req.system }]) ++
    [{ role := "user", content := req.prompt }]

/-- What the generate handler decides before any upstream traffic:
invalidRequest is the 400 response to a malformed body; proceed means the
handler goes on to provider.GetFullModelName(request.Model) - which
fetches the catalog when the cache is empty - and then to the upstream
Chat or ChatStream call (src/main.go 170-236). -/
inductive GenerateDispatch where
  | invalidRequest (msg : String)
  | proceed (modelAlias : String) (messages : List ChatMessage)
deriving DecidableEq

/-- Pre-upstream phase of POST /api/generate (src/main.go 157-236): only
JSON binding failure is rejected; every bound request proceeds to alias
resolution and the upstream call, whatever its field values. -/
def generateDispatch : Option GenerateRequest → GenerateDispatch
  | none => GenerateDispatch.invalidRequest "Invalid JSON payload"
  | some req => GenerateDispatch.proceed req.model (generateMessages req)

/-- True on the 400 invalid-request outcome. -/
def GenerateDispatch.isInvalid : GenerateDispatch → Bool
  | GenerateDispatch.invalidRequest _ => true
  | GenerateDispatch.proceed _ _ => false

/-- What the chat handler decides before any upstream traffic: loadStub
is the immediate done:true "load" reply to an empty message list
(src/main.go 519-544), otherwise every bound request proceeds to alias
resolution and the upstream call (547-601). -/
inductive ChatDispatch where
  | invalidRequest (msg : String)
  | loadStub
  | proceed (modelAlias : String) (messages : List ChatMessage)
deriving DecidableEq

/-- Pre-upstream phase of POST /api/chat (src/main.go 496-601). -/
def chatDispatch : Option ChatRequest → ChatDispatch
  | none => ChatDispatch.invalidRequest "Invalid JSON payload"
  | some req =>
    if req.messages.isEmpty then ChatDispatch.loadStub
    else ChatDispatch.proceed req.model req.messages

/-- True on the 400 invalid-request outcome. -/
def ChatDispatch.isInvalid : ChatDispatch → Bool
  | ChatDispatch.invalidRequest _ => true
  | ChatDispatch.loadStub => false
  | ChatDispatch.proceed _ _ => false

/-! ## Helper lemmas -/

/-- Shape of a /api/chat run in which every received chunk has at least
one choice: one intermediate event per chunk, in order, followed by the
tail events, with lastFinishReason folded over the chunks. -/
theorem chatStreamLoop_ok (model : String) (tail : StreamTail) (chunks : List StreamChunk) :
    ∀ fr : String, (∀ c ∈ chunks, c.choices ≠ []) →
    chatStreamLoop model fr chunks tail =
      StreamRun.ok ((chunks.map fun c => ChatEvent.chunk model (firstDeltaContent c)) ++
        chatTailEvents model tail (List.foldl updateFR fr chunks)) := by
  induction chunks with
  | nil => intro fr _; rfl
  | cons c rest ih =>
    intro fr h
    cases hcc : c.choices with
    | nil => exact absurd hcc (h c (List.mem_cons_self c rest))
    | cons ch cs =>
      have hrest : ∀ x ∈ rest, x.choices ≠ [] := fun x hx => h x (List.mem_cons_of_mem c hx)
      have ihr := ih (updateFR fr c) hrest
      simp only [chatStreamLoop, hcc, ihr, List.map_cons, List.cons_append, List.foldl_cons,
        firstDeltaContent]

/-- Shape of a /api/generate run in which every received chunk has at
least one choice. -/
theorem genStreamLoop_ok (model : String) (tail : StreamTail) (chunks : List StreamChunk) :
    ∀ fr : String, (∀ c ∈ chunks, c.choices ≠ []) →
    genStreamLoop model fr chunks tail =
      StreamRun.ok ((chunks.map fun c => GenEvent.chunk model (firstDeltaContent c)) ++
        genTailEvents model tail (List.foldl updateFR fr chunks)) := by
  induction chunks with
  | nil => intro fr _; rfl
  | cons c rest ih =>
    intro fr h
    cases hcc : c.choices with
    | nil => exact absurd hcc (h c (List.mem_cons_self c rest))
    | cons ch cs =>
      have hrest : ∀ x ∈ rest, x.choices ≠ [] := fun x hx => h x (List.mem_cons_of_mem c hx)
      have ihr := ih (updateFR fr c) hrest
      simp only [genStreamLoop, hcc, ihr, List.map_cons, List.cons_append, List.foldl_cons,
        firstDeltaContent]

/-- The /api/chat run reaches the out-of-range Choices[0] read exactly
when some delivered chunk has zero choices. -/
theorem chatStreamLoop_panicked_iff (model : String) (tail : StreamTail) (chunks : List StreamChunk) :
    ∀ fr : String,
    StreamRun.isPanicked (chatStreamLoop model fr chunks tail) = true ↔ ∃ c ∈ chunks, c.choices = [] := by
  induction chunks with
  | nil => intro fr; simp [chatStreamLoop, StreamRun.isPanicked]
  | cons c rest ih =>
    intro fr
    cases hcc : c.choices with
    | nil =>
      simp only [chatStreamLoop, hcc, StreamRun.isPanicked, true_iff]
      exact ⟨c, List.mem_cons_self c rest, hcc⟩
    | cons ch cs =>
      have ihr := ih (updateFR fr c)
      have hstep : StreamRun.isPanicked (chatStreamLoop model fr (c :: rest) tail) =
          StreamRun.isPanicked (chatStreamLoop model (updateFR fr c) rest tail) := by
        cases hrec : chatStreamLoop model (updateFR fr c) rest tail <;>
          simp [chatStreamLoop, hcc, hrec, StreamRun.isPanicked]
      rw [hstep, ihr]
      constructor
      · intro ⟨x, hx, hxe⟩
        exact ⟨x, List.mem_cons_of_mem c hx, hxe⟩
      · intro ⟨x, hx, hxe⟩
        rcases List.mem_cons.mp hx with rfl | hx
        · exact absurd hxe (by simp [hcc])
        · exact ⟨x, hx, hxe⟩

/-- The /api/generate run reaches the out-of-range Choices[0] read
exactly when some delivered chunk has zero choices. -/
theorem genStreamLoop_panicked_iff (model : String) (tail : StreamTail) (chunks : List StreamChunk) :
    ∀ fr : String,
    StreamRun.isPanicked (genStreamLoop model fr chunks tail) = true ↔ ∃ c ∈ chunks, c.choices = [] := by
  induction chunks with
  | nil => intro fr; simp [genStreamLoop, StreamRun.isPanicked]
  | cons c rest ih =>
    intro fr
    cases hcc : c.choices with
    | nil =>
      simp only [genStreamLoop, hcc, StreamRun.isPanicked, true_iff]
      exact ⟨c, List.mem_cons_self c rest, hcc⟩
    | cons ch cs =>
      have ihr := ih (updateFR fr c)
      have hstep : StreamRun.isPanicked (genStreamLoop model fr (c :: rest) tail) =
          StreamRun.isPanicked (genStreamLoop model (updateFR fr c) rest tail) := by
        cases hrec : genStreamLoop model (updateFR fr c) rest tail <;>
          simp [genStreamLoop, hcc, hrec, StreamRun.isPanicked]
      rw [hstep, ihr]
      constructor
      · intro ⟨x, hx, hxe⟩
        exact ⟨x, List.mem_cons_of_mem c hx, hxe⟩
      · intro ⟨x, hx, hxe⟩
        rcases List.mem_cons.mp hx with rfl | hx
        · exact absurd hxe (by simp [hcc])
        · exact ⟨x, hx, hxe⟩

/-- The left fold of the lastFinishReason update equals the last
non-empty finish reason the chunk list contributes, defaulting to the
starting value. -/
theorem foldl_updateFR_eq_getLastD (chunks : List StreamChunk) :
    ∀ fr : String, List.foldl updateFR fr chunks = (chunks.filterMap chunkFR).getLastD fr := by
  induction chunks with
  | nil => intro fr; rfl
  | cons c rest ih =>
    intro fr
    rw [List.foldl_cons, List.filterMap_cons]
    cases hcc : c.choices with
    | nil => simp only [chunkFR, updateFR, hcc]; exact ih fr
    | cons ch cs =>
      by_cases hfr : ch.finishReason = ""
      · simp only [chunkFR, updateFR, hcc, hfr, if_pos rfl, if_true]
        exact ih fr
      · simp only [chunkFR, updateFR, hcc, if_neg hfr]
        rw [List.getLastD_cons]
        exact ih ch.finishReason

/-- The final lastFinishReason of a whole run is the last non-empty
observed finish reason, or "" when none was observed. -/
theorem lastFinishReasonAfter_eq_lastObservedFR (chunks : List StreamChunk) :
    lastFinishReasonAfter chunks = lastObservedFR chunks :=
  foldl_updateFR_eq_getLastD chunks ""

/-- Every value the shared field takes during the append loop is the
starting value extended by some prefix of the remaining identifiers. -/
theorem appendStates_mem_take (ids : List String) :
    ∀ (cur s : List String), s ∈ appendStates cur ids → ∃ k, s = cur ++ ids.take k := by
  induction ids with
  | nil =>
    intro cur s hs
    simp only [appendStates, List.mem_singleton] at hs
    exact ⟨0, by simp [hs]⟩
  | cons id rest ih =>
    intro cur s hs
    simp only [appendStates, List.mem_cons] at hs
    rcases hs with rfl | hs
    · exact ⟨0, by simp⟩
    · obtain ⟨k, hk⟩ := ih (cur ++ [id]) s hs
      exact ⟨k + 1, by simp [hk]⟩

/-- The fully rebuilt list is among the observable states. -/
theorem appendStates_last_mem (ids : List String) :
    ∀ cur : List String, (cur ++ ids) ∈ appendStates cur ids := by
  induction ids with
  | nil => intro cur; simp [appendStates]
  | cons id rest ih =>
    intro cur
    simp only [appendStates, List.mem_cons]
    right
    have h := ih (cur ++ [id])
    simpa using h

/-! ## Claims -/

/-- Claim C1: for every backend stream that delivers N events with
non-empty text deltas and then signals io.EOF, each streaming handler
(/api/chat and /api/generate) emits exactly the N non-terminal
done=false events in the exact order the deltas were received, followed
by exactly one terminal done=true event, which is the last event
emitted for the request. -/
theorem C1_stream_eof_order (model : String) (chunks : List StreamChunk)
    (h : ∀ c ∈ chunks, c.choices ≠ [] ∧ firstDeltaContent c ≠ "") :
    chatStream model chunks StreamTail.eof =
      StreamRun.ok ((chunks.map fun c => ChatEvent.chunk model (firstDeltaContent c)) ++
        [ChatEvent.finalEvent model "" (defaultStop (lastFinishReasonAfter chunks)) 0 0 0 0 0]) ∧
    genStream model chunks StreamTail.eof =
      StreamRun.ok ((chunks.map fun c => GenEvent.chunk model (firstDeltaContent c)) ++
        [GenEvent.finalEvent model "" [1, 2, 3] 0 0 0 0 0 0]) ∧
    (∀ c ∈ chunks, ChatEvent.doneField (ChatEvent.chunk model (firstDeltaContent c)) = some false ∧
      GenEvent.doneField (GenEvent.chunk model (firstDeltaContent c)) = some false) ∧
    ChatEvent.doneField
      (ChatEvent.finalEvent model "" (defaultStop (lastFinishReasonAfter chunks)) 0 0 0 0 0) = some true ∧
    GenEvent.doneField (GenEvent.finalEvent model "" [1, 2, 3] 0 0 0 0 0 0) = some true := by
  have hc : ∀ c ∈ chunks, c.choices ≠ [] := fun c hc => (h c hc).1
  refine ⟨chatStreamLoop_ok model StreamTail.eof chunks "" hc,
    genStreamLoop_ok model StreamTail.eof chunks "" hc, fun c _ => ⟨rfl, rfl⟩, rfl, rfl⟩

/-- Claim C1 witness: a two-delta stream ending in io.EOF. -/
theorem C1_stream_eof_order_witness :
    chatStream "m" [StreamChunk.mk [StreamChoice.mk "Hel" ""],
        StreamChunk.mk [StreamChoice.mk "lo" "length"]] StreamTail.eof =
      StreamRun.ok [ChatEvent.chunk "m" "Hel", ChatEvent.chunk "m" "lo",
        ChatEvent.finalEvent "m" "" "length" 0 0 0 0 0] := by
  have h := (C1_stream_eof_order "m" [StreamChunk.mk [StreamChoice.mk "Hel" ""],
    StreamChunk.mk [StreamChoice.mk "lo" "length"]] (by decide)).1
  exact h

/-- Claim C2: for every backend stream that delivers k successful delta
events and then returns a non-EOF error, each streaming handler emits
exactly the k non-terminal events already produced plus one error-shaped
JSON event, and returns without ever emitting a terminal success event:
no emitted object has done=true. -/
theorem C2_stream_error_shape (model msg : String) (chunks : List StreamChunk)
    (h : ∀ c ∈ chunks, c.choices ≠ []) :
    chatStream model chunks (StreamTail.recvError msg) =
      StreamRun.ok ((chunks.map fun c => ChatEvent.chunk model (firstDeltaContent c)) ++
        [ChatEvent.streamError ("Stream error: " ++ msg)]) ∧
    genStream model chunks (StreamTail.recvError msg) =
      StreamRun.ok ((chunks.map fun c => GenEvent.chunk model (firstDeltaContent c)) ++
        [GenEvent.streamError ("Stream error: " ++ msg)]) ∧
    (∀ e ∈ (chunks.map fun c => ChatEvent.chunk model (firstDeltaContent c)) ++
        [ChatEvent.streamError ("Stream error: " ++ msg)], ChatEvent.doneField e ≠ some true) ∧
    (∀ e ∈ (chunks.map fun c => GenEvent.chunk model (firstDeltaContent c)) ++
        [GenEvent.streamError ("Stream error: " ++ msg)], GenEvent.doneField e ≠ some true) := by
  refine ⟨chatStreamLoop_ok model (StreamTail.recvError msg) chunks "" h,
    genStreamLoop_ok model (StreamTail.recvError msg) chunks "" h, ?_, ?_⟩
  · intro e he
    rcases List.mem_append.mp he with hm | hm
    · obtain ⟨c, _, rfl⟩ := List.mem_map.mp hm
      simp [ChatEvent.doneField]
    · rw [List.mem_singleton.mp hm]
      simp [ChatEvent.doneField]
  · intro e he
    rcases List.mem_append.mp he with hm | hm
    · obtain ⟨c, _, rfl⟩ := List.mem_map.mp hm
      simp [GenEvent.doneField]
    · rw [List.mem_singleton.mp hm]
      simp [GenEvent.doneField]

/-- Claim C2 witness: two deltas then a backend error. -/
theorem C2_stream_error_shape_witness :
    chatStream "m" [StreamChunk.mk [StreamChoice.mk "a" ""],
        StreamChunk.mk [StreamChoice.mk "b" ""]] (StreamTail.recvError "boom") =
      StreamRun.ok [ChatEvent.chunk "m" "a", ChatEvent.chunk "m" "b",
        ChatEvent.streamError "Stream error: boom"] := by
  have h := (C2_stream_error_shape "m" "boom" [StreamChunk.mk [StreamChoice.mk "a" ""],
    StreamChunk.mk [StreamChoice.mk "b" ""]] (by decide)).1
  exact h

/-- Claim C3 counterexample: a /api/generate streamed request that
reaches end-of-stream immediately.  No backend event carried a finish
reason, so the claim requires the terminal event to carry the default
finish reason "stop"; but the terminal /api/generate object carries no
finish_reason key at all (its finishReasonField is none, not
some "stop"), even though the handler computed and defaulted the
lastFinishReason variable. -/
theorem C3_generate_terminal_no_finish_reason :
    genStream "m" [] StreamTail.eof =
      StreamRun.ok [GenEvent.finalEvent "m" "" [1, 2, 3] 0 0 0 0 0 0] ∧
    GenEvent.doneField (GenEvent.finalEvent "m" "" [1, 2, 3] 0 0 0 0 0 0) = some true ∧
    GenEvent.finishReasonField (GenEvent.finalEvent "m" "" [1, 2, 3] 0 0 0 0 0 0) = none ∧
    (none : Option String) ≠ some "stop" :=
  ⟨rfl, rfl, rfl, by simp⟩

/-- Claim C3 as amended: for every streamed request that reaches
end-of-stream, the single terminal event carries an empty text payload
and zeroed usage counters; on /api/chat it carries a finish_reason equal
to the last non-empty finish reason observed in any backend event (later
values overwriting earlier ones), defaulting to "stop" when none was
observed, while on /api/generate no finish_reason key is emitted at all
(the computed value is discarded). -/
theorem C3_amended_terminal_payload (model : String) (chunks : List StreamChunk)
    (h : ∀ c ∈ chunks, c.choices ≠ []) :
    chatStream model chunks StreamTail.eof =
      StreamRun.ok ((chunks.map fun c => ChatEvent.chunk model (firstDeltaContent c)) ++
        [ChatEvent.finalEvent model "" (defaultStop (lastObservedFR chunks)) 0 0 0 0 0]) ∧
    ChatEvent.finishReasonField
        (ChatEvent.finalEvent model "" (defaultStop (lastObservedFR chunks)) 0 0 0 0 0) =
      some (defaultStop (lastObservedFR chunks)) ∧
    genStream model chunks StreamTail.eof =
      StreamRun.ok ((chunks.map fun c => GenEvent.chunk model (firstDeltaContent c)) ++
        [GenEvent.finalEvent model "" [1, 2, 3] 0 0 0 0 0 0]) ∧
    (∀ e : GenEvent, GenEvent.finishReasonField e = none) := by
  refine ⟨?_, rfl, genStreamLoop_ok model StreamTail.eof chunks "" h, ?_⟩
  · have hch := chatStreamLoop_ok model StreamTail.eof chunks "" h
    rw [show List.foldl updateFR "" chunks = lastObservedFR chunks from
      foldl_updateFR_eq_getLastD chunks ""] at hch
    exact hch
  · intro e
    cases e <;> rfl

/-- Claim C3 amended witness: a stream whose second chunk carries finish
reason "length"; the chat terminal event carries it. -/
theorem C3_amended_terminal_payload_witness :
    chatStream "m" [StreamChunk.mk [StreamChoice.mk "hi" ""],
        StreamChunk.mk [StreamChoice.mk "" "length"]] StreamTail.eof =
      StreamRun.ok [ChatEvent.chunk "m" "hi", ChatEvent.chunk "m" "",
        ChatEvent.finalEvent "m" "" "length" 0 0 0 0 0] := by
  have h := (C3_amended_terminal_payload "m" [StreamChunk.mk [StreamChoice.mk "hi" ""],
    StreamChunk.mk [StreamChoice.mk "" "length"]] (by decide)).1
  exact h

/-- Claim C4: for every alias that is not an exact member of the catalog
snapshot but is a strict suffix of at least one snapshot entry occurring
after that entry's namespace separator, GetFullModelName returns the
full identifier of the first suffix-matching entry in snapshot order
(the suffix scan of the provider tests plain strings.HasSuffix, so the
first match in snapshot order is the first entry the alias is a suffix
of). -/
theorem C4_suffix_match_first (names : List String) (al : String)
    (hexact : ∀ n ∈ names, (n == al) = false)
    (hsuffix : ∃ e ∈ names, strictSuffixAfterSep al e = true) :
    ∃ e, names.find? (fun n => List.isSuffixOf al.toList n.toList) = some e ∧
      GetFullModelName names al = e := by
  obtain ⟨e0, he0, hs0⟩ := hsuffix
  have hsuf0 : List.isSuffixOf al.toList e0.toList = true := by
    have h := hs0
    simp only [strictSuffixAfterSep, Bool.and_eq_true] at h
    exact h.1.1
  have hsome : (names.find? (fun n => List.isSuffixOf al.toList n.toList)).isSome :=
    List.find?_isSome.mpr ⟨e0, he0, hsuf0⟩
  obtain ⟨e, he⟩ := Option.isSome_iff_exists.mp hsome
  refine ⟨e, he, ?_⟩
  have h1 : names.find? (fun n => n == al) = none :=
    List.find?_eq_none.mpr (fun x hx => by
      simp only [hexact x hx]
      exact Bool.false_ne_true)
  unfold GetFullModelName
  rw [h1, he]

/-- Claim C4 witness: alias "gemma-7b" against a two-entry snapshot. -/
theorem C4_suffix_match_first_witness :
    ∃ e, (["openai/gpt-4o", "google/gemma-7b"].find?
        (fun n => List.isSuffixOf "gemma-7b".toList n.toList)) = some e ∧
      GetFullModelName ["openai/gpt-4o", "google/gemma-7b"] "gemma-7b" = e :=
  C4_suffix_match_first ["openai/gpt-4o", "google/gemma-7b"] "gemma-7b" (by decide)
    ⟨"google/gemma-7b", by decide, by decide⟩

/-- Claim C5: for every alias that matches no catalog entry exactly or
by suffix, resolution returns the alias itself unchanged and does not
fail: whenever the effective snapshot is available (non-empty cache, or
a successful fetch when the cache is empty), GetFullModelName never
returns an error solely because the alias is absent. -/
theorem C5_passthrough (cached names : List String) (fetch : Except String (List String))
    (al : String)
    (hnames : effectiveNames cached fetch = Except.ok names)
    (hexact : ∀ n ∈ names, (n == al) = false)
    (hsuffix : ∀ n ∈ names, List.isSuffixOf al.toList n.toList = false) :
    GetFullModelNameE cached fetch al = Except.ok al := by
  have h1 : names.find? (fun n => n == al) = none :=
    List.find?_eq_none.mpr (fun x hx => by
      simp only [hexact x hx]
      exact Bool.false_ne_true)
  have h2 : names.find? (fun n => List.isSuffixOf al.toList n.toList) = none :=
    List.find?_eq_none.mpr (fun x hx => by
      simp only [hsuffix x hx]
      exact Bool.false_ne_true)
  unfold GetFullModelNameE
  rw [hnames]
  show Except.ok (GetFullModelName names al) = Except.ok al
  unfold GetFullModelName
  rw [h1, h2]

/-- Claim C5 witness: an alias absent from a non-empty cached snapshot
resolves to itself even though the (unused) fetch would fail. -/
theorem C5_passthrough_witness :
    GetFullModelNameE ["vendor/alpha"] (Except.error "boom") "zzz" = Except.ok "zzz" :=
  C5_passthrough ["vendor/alpha"] ["vendor/alpha"] (Except.error "boom") "zzz" rfl
    (by decide) (by decide)

/-- Claim C6 counterexample: a /api/generate request whose model field
is missing (bound to the empty string) is not rejected as an invalid
request: the handler proceeds to alias resolution and the upstream call.
Likewise for /api/chat with a non-empty message list. -/
theorem C6_missing_model_not_rejected :
    generateDispatch (some { model := "", prompt := "hello", system := "", stream := none }) =
      GenerateDispatch.proceed "" [{ role := "user", content := "hello" }] ∧
    GenerateDispatch.isInvalid
      (generateDispatch (some { model := "", prompt := "hello", system := "", stream := none })) =
        false ∧
    chatDispatch (some { model := "", messages := [{ role := "user", content := "hi" }], stream := none }) =
      ChatDispatch.proceed "" [{ role := "user", content := "hi" }] ∧
    ChatDispatch.isInvalid (chatDispatch (some { model := "", messages := [{ role := "user", content := "hi" }], stream := none })) = false :=
  ⟨rfl, rfl, rfl, rfl⟩

/-- Claim C6 as amended: only a syntactically malformed body is rejected
with the InvalidRequest client error before any upstream call; a bound
request is never rejected for a missing model identifier - the generate
handler always proceeds to alias resolution and the upstream call, the
chat handler does so whenever its message list is non-empty, and with an
empty cache the empty model alias is resolved against a freshly fetched
catalog (so an upstream catalog fetch does happen for such a request). -/
theorem C6_amended_validation (req : GenerateRequest) (creq : ChatRequest)
    (hm : creq.messages ≠ []) :
    generateDispatch none = GenerateDispatch.invalidRequest "Invalid JSON payload" ∧
    chatDispatch none = ChatDispatch.invalidRequest "Invalid JSON payload" ∧
    generateDispatch (some req) = GenerateDispatch.proceed req.model (generateMessages req) ∧
    chatDispatch (some creq) = ChatDispatch.proceed creq.model creq.messages ∧
    GetFullModelNameE [] (Except.ok ["vendor/modelx"]) "" = Except.ok "vendor/modelx" := by
  refine ⟨rfl, rfl, rfl, ?_, rfl⟩
  simp only [chatDispatch]
  rw [if_neg (by simpa [List.isEmpty_iff] using hm)]

/-- Claim C6 amended witness: a well-formed chat request with a missing
model field proceeds to the upstream call. -/
theorem C6_amended_validation_witness :
    chatDispatch (some { model := "", messages := [{ role := "user", content := "q" }], stream := none }) =
      ChatDispatch.proceed "" [{ role := "user", content := "q" }] :=
  (C6_amended_validation { model := "", prompt := "", system := "", stream := none }
    { model := "", messages := [{ role := "user", content := "q" }], stream := none }
    (by decide)).2.2.2.1

/-- Claim C7: the synthesized descriptor's parameter-size class and
family are computed by the first-match-wins, case-insensitive substring
cascade over the identifier concatenated with its final slash-segment
(size 70b, 13b, 3b, 1b, default 7B; family llama, mistral, gemma,
claude, gpt, default transformer), and in particular
"meta/llama-3-70b-instruct" yields family llama with size 70B while
"acme/nano-1b" yields family transformer with size 1B. -/
theorem C7_metadata_cascade :
    (∀ id : String, (buildModel id).details.parameterSize = parameterSizeOf id ∧
      (buildModel id).details.family = familyOf id ∧
      (buildModel id).details.families = [familyOf id] ∧
      GetModels [id] = [buildModel id]) ∧
    familyOf "meta/llama-3-70b-instruct" = "llama" ∧
    parameterSizeOf "meta/llama-3-70b-instruct" = "70B" ∧
    familyOf "acme/nano-1b" = "transformer" ∧
    parameterSizeOf "acme/nano-1b" = "1B" := by
  refine ⟨fun id => ⟨rfl, rfl, rfl, rfl⟩, ?_, ?_, ?_, ?_⟩ <;> decide

/-- Claim C8 counterexample: with prior snapshot ["a"] and fetched
identifiers ["b", "c"], the shared modelNames field passes through the
intermediate states [] and ["b"], which are neither the prior snapshot
nor the new one: the rebuild is not an atomic wholesale replacement, and
a concurrent reader can observe a half-built snapshot. -/
theorem C8_torn_state_counterexample :
    ["b"] ∈ GetModelsStates ["b", "c"] ∧
    ([] : List String) ∈ GetModelsStates ["b", "c"] ∧
    (["b"] : List String) ≠ ["a"] ∧
    (["b"] : List String) ≠ ["b", "c"] ∧
    ([] : List String) ≠ ["a"] := by
  refine ⟨?_, ?_, by decide, by decide, by decide⟩ <;>
    simp [GetModelsStates, appendStates]

/-- Claim C8 as amended: GetModels rebuilds the shared modelNames field
in place with no synchronization, first clearing it and then appending
one identifier at a time; the observable states of the field during a
fetch are exactly the prefixes of the new identifier list, from the
empty list up to the full list, so a concurrent reader may observe a
half-built snapshot (and, there being no lock, a fetch in progress never
blocks a concurrent read). -/
theorem C8_amended_incremental_rebuild (ids : List String) :
    ([] : List String) ∈ GetModelsStates ids ∧
    ids ∈ GetModelsStates ids ∧
    (∀ s ∈ GetModelsStates ids, ∃ k, s = ids.take k) := by
  refine ⟨?_, ?_, ?_⟩
  · cases ids <;> simp [GetModelsStates, appendStates]
  · have h := appendStates_last_mem ids []
    simpa [GetModelsStates] using h
  · intro s hs
    obtain ⟨k, hk⟩ := appendStates_mem_take ids [] s hs
    exact ⟨k, by simpa using hk⟩

/-- Claim C8 amended witness: the empty intermediate state during a
fetch of ["b"] is a prefix of the new list. -/
theorem C8_amended_incremental_rebuild_witness :
    ([] : List String) ∈ GetModelsStates ["b"] ∧ (∃ k, ([] : List String) = ["b"].take k) :=
  ⟨(C8_amended_incremental_rebuild ["b"]).1,
    (C8_amended_incremental_rebuild ["b"]).2.2 [] (C8_amended_incremental_rebuild ["b"]).1⟩

/-- Claim C9 counterexample: a non-empty snapshot that contains the
empty string as a later entry.  Resolving the empty alias returns the
empty string via the exact-match scan, not the first identifier of the
snapshot. -/
theorem C9_empty_alias_counterexample :
    GetFullModelName ["a", ""] "" = "" ∧
    (["a", ""].headD "") = "a" ∧
    ("" : String) ≠ "a" := by
  refine ⟨rfl, rfl, by decide⟩

/-- Claim C9 as amended: for every non-empty catalog snapshot none of
whose entries is itself the empty string, resolving the empty-string
alias returns the first identifier in the snapshot rather than the empty
string: every string ends with the empty suffix, so the suffix-match
scan fires on the first entry, and an absent or empty model field is
silently rewritten to an arbitrary catalog model instead of passing
through or failing. -/
theorem C9_amended_empty_alias (names : List String) (h : names ≠ [])
    (hne : ∀ n ∈ names, n ≠ "") :
    GetFullModelName names "" = names.headD "" := by
  cases names with
  | nil => exact absurd rfl h
  | cons a rest =>
    have h1 : (a :: rest).find? (fun n => n == "") = none :=
      List.find?_eq_none.mpr (fun x hx => by simpa using hne x hx)
    have h2 : (a :: rest).find? (fun n => List.isSuffixOf "".toList n.toList) = some a :=
      List.find?_cons_of_pos rest (by simp)
    simp [GetFullModelName, h1, h2]

/-- Claim C9 amended witness: the empty alias resolves to the first of
two ordinary snapshot entries. -/
theorem C9_amended_empty_alias_witness :
    GetFullModelName ["vendor/alpha", "vendor/beta"] "" = "vendor/alpha" := by
  have h := C9_amended_empty_alias ["vendor/alpha", "vendor/beta"] (by decide) (by decide)
  exact h

/-- Claim C10: in both streaming loops the non-terminal event
construction reads response.Choices[0].Delta.Content without first
checking that Choices is non-empty (only the finish-reason read is
guarded), so a run reaches the out-of-bounds branch exactly when some
received chunk has zero choices, and emission is total (the run
completes normally) under the precondition that every received chunk
contains at least one choice. -/
theorem C10_unguarded_first_choice_read (model fr : String) (chunks : List StreamChunk)
    (tail : StreamTail) :
    (StreamRun.isPanicked (chatStreamLoop model fr chunks tail) = true ↔
      ∃ c ∈ chunks, c.choices = []) ∧
    (StreamRun.isPanicked (genStreamLoop model fr chunks tail) = true ↔
      ∃ c ∈ chunks, c.choices = []) ∧
    ((∀ c ∈ chunks, c.choices ≠ []) →
      (∃ evs, chatStreamLoop model fr chunks tail = StreamRun.ok evs) ∧
      (∃ evs, genStreamLoop model fr chunks tail = StreamRun.ok evs)) :=
  ⟨chatStreamLoop_panicked_iff model tail chunks fr,
   genStreamLoop_panicked_iff model tail chunks fr,
   fun h => ⟨⟨_, chatStreamLoop_ok model tail chunks fr h⟩,
     ⟨_, genStreamLoop_ok model tail chunks fr h⟩⟩⟩

/-- Claim C10 witness: a zero-choice chunk reaches the out-of-bounds
branch; a one-choice chunk completes normally. -/
theorem C10_unguarded_first_choice_read_witness :
    StreamRun.isPanicked (chatStreamLoop "m" "" [StreamChunk.mk []] StreamTail.eof) = true ∧
    (∃ evs, chatStreamLoop "m" "" [StreamChunk.mk [StreamChoice.mk "x" ""]] StreamTail.eof =
      StreamRun.ok evs) :=
  ⟨(C10_unguarded_first_choice_read "m" "" [StreamChunk.mk []] StreamTail.eof).1.mpr
      ⟨StreamChunk.mk [], by simp, rfl⟩,
   ((C10_unguarded_first_choice_read "m" "" [StreamChunk.mk [StreamChoice.mk "x" ""]]
      StreamTail.eof).2.2 (by decide)).1⟩
